import Mathlib

/-!
# Spotifind backend — game session coordinator: shallow embedding

This file embeds the game-session coordinator of the spotifind backend:
the mongoose game model (statuses, player subdocuments, the validators and
the code-minting pre-save hook), the `GameService` (used codes, inactive-game
reaper), the websocket handlers (`JOIN`, `LEAVE`, `CONNECT`, `START`,
`register` / `unregister`) and the HTTP game controller's delete handler.
Machine state is passed explicitly; fallible persistence is modelled by
validation returning the mongoose error messages.
-/

namespace Spotifind

/-- Game status enumeration (`Status` in the game model):
`INIT = 0, TIMER_BETWEEN = 1, TIMER_CURRENT = 2, FINISHED = 3`. -/
inductive Status where
  | INIT
  | TIMER_BETWEEN
  | TIMER_CURRENT
  | FINISHED
deriving DecidableEq, Repr

/-- Player subdocument: store-assigned `id`, `name` (required, max 16 chars),
`author` (default `false`), `score` (default `0`). -/
structure Player where
  id : String
  name : String
  author : Bool
  score : Int
deriving DecidableEq, Repr

/-- Game document: store-assigned `id`, `status` (default `INIT`),
`code` (default `null`), `players`, `playlistId` (default `null`),
`shuffle` (default `true`), and the `timestamps`-maintained `updatedAt`
(epoch milliseconds). -/
structure Game where
  id : String
  status : Status
  code : Option String
  players : List Player
  playlistId : Option String
  shuffle : Bool
  updatedAt : Nat
deriving DecidableEq, Repr

/-- Virtual `starting`: `status === Status.INIT`. -/
def Game.starting (g : Game) : Bool :=
  g.status = Status.INIT

/-- Virtual `inProgress`: `status === TIMER_BETWEEN || status === TIMER_CURRENT`. -/
def Game.inProgress (g : Game) : Bool :=
  g.status = Status.TIMER_BETWEEN ∨ g.status = Status.TIMER_CURRENT

/-- Virtual `finished`: `status === Status.FINISHED`. -/
def Game.finished (g : Game) : Bool :=
  g.status = Status.FINISHED

/-- Decoded game token payload (`GameTokenData`): `{ code, playerId }`.
The token codec is opaque; a token is represented by its decoded payload. -/
structure GameTokenData where
  code : String
  playerId : String
deriving DecidableEq, Repr

/-- Mongoose validation of a game document on `save`: collects the messages of
the failing validators (`players` bounds 1..10, player `name` required and at
most 16 characters). -/
def validateGame (g : Game) : List String :=
  (if g.players.length ≥ 1 then [] else ["A game must contains one player minimum"]) ++
  (if g.players.length ≤ 10 then [] else ["A game must contains 10 players maximum"]) ++
  g.players.foldr (fun p acc =>
    (if p.name = "" then ["Player name is required"] else []) ++
    (if p.name.length ≤ 16 then [] else ["Player name is too long (16 characters maximum)"]) ++
    acc) []

/-- A game document passes mongoose validation. -/
def validGame (g : Game) : Prop := validateGame g = []

instance (g : Game) : Decidable (validGame g) := by
  unfold validGame; infer_instance

/-- `generateRandomNumeric(length)` of the crypto service.
Modelled from the spec: the crypto service (not part of the embedded sources)
"generates a random numeric string of the configured length"; the randomness
source is made explicit as a `seed` natural, rendered as `length` decimal
digits (most significant first). -/
def generateRandomNumeric (len seed : Nat) : String :=
  String.mk ((List.range len).map (fun i => Char.ofNat (48 + seed / 10 ^ (len - 1 - i) % 10)))

/-- A string consisting of exactly `len` decimal digit characters. -/
def numericOfLength (s : String) (len : Nat) : Prop :=
  s.data.length = len ∧ ∀ c ∈ s.data, 48 ≤ c.toNat ∧ c.toNat ≤ 57

instance (s : String) (len : Nat) : Decidable (numericOfLength s len) := by
  unfold numericOfLength; infer_instance

/-- The code-minting do/while loop of the game schema's `pre('save')` hook:
`do { code = generateRandomNumeric(codeLength) } while (usedCodes.includes(code))`.
Successive draws of the random source are `seeds 0, seeds 1, ...`; `k` is the
index of the next draw and `fuel` bounds the number of iterations (the source
loop is unbounded). -/
def mintLoop (len : Nat) (used : List String) (seeds : Nat → Nat) : Nat → Nat → Option String
  | _, 0 => none
  | k, fuel + 1 =>
    let c := generateRandomNumeric len (seeds k)
    if used.contains c then mintLoop len used seeds (k + 1) fuel else some c

/-- The game schema's `pre('save')` hook on a new document: mints a fresh code,
assigns it to the game and pushes it onto `usedCodes`. Returns `none` when the
loop fuel runs out. -/
def preSaveHook (len : Nat) (g : Game) (used : List String) (seeds : Nat → Nat)
    (fuel : Nat) : Option (Game × List String) :=
  match mintLoop len used seeds 0 fuel with
  | none => none
  | some c => some ({ g with code := some c }, used ++ [c])

/-! ## Lodash `_.remove` with a non-function predicate

`finishInactiveGamesTask` calls `_.remove(this._usedCodes, game.code)`.
Since `game.code` is a string (or `null`), lodash does not compare elements to
it: a string predicate is the `_.property` iteratee shorthand, so an element
`e` is removed iff `e[game.code]` is truthy. For a JavaScript string `e`,
`e[p]` is a (truthy) one-character string exactly when `p` is a canonical
numeric index below `e.length`, and `undefined` (falsy) otherwise. A `null`
predicate is the identity iteratee, removing every truthy (non-empty) string. -/

/-- JavaScript canonical array-index reading of a string: all decimal digits,
non-empty, and no leading zero unless the string is exactly `"0"`; yields the
denoted natural number. -/
def jsCanonicalIndex (path : String) : Option Nat :=
  if path.data ≠ [] ∧ (∀ c ∈ path.data, 48 ≤ c.toNat ∧ c.toNat ≤ 57) ∧
      (path.data.head? = some '0' → path.data = ['0']) then
    some (path.data.foldl (fun a c => a * 10 + (c.toNat - 48)) 0)
  else
    none

instance (p : String) (o : Option Nat) : Decidable (jsCanonicalIndex p = o) := by
  unfold jsCanonicalIndex; infer_instance

/-- Truthiness of `elem[path]` for a JavaScript string `elem` and string
property `path` (the `_.property` shorthand applied to a string element). -/
def lodashPropTruthy (elem path : String) : Bool :=
  match jsCanonicalIndex path with
  | some i => i < elem.data.length
  | none => false

/-- `_.remove(arr, code)` where `code` is `game.code` (a string or `null`):
returns the array after the (shorthand-iteratee) removal. -/
def lodashRemoveByCode (arr : List String) (code : Option String) : List String :=
  match code with
  | none => arr.filter (fun e => e = "")
  | some p => arr.filter (fun e => ¬ lodashPropTruthy e p)

/-! ## Server state and websocket handlers -/

/-- Process configuration: `config.services.games.codeLength` and
`config.services.games.inactiveTime` (minutes). -/
structure Config where
  codeLength : Nat
  inactiveTimeMin : Nat
deriving DecidableEq, Repr

/-- One entry of `WebsocketService.registeredSockets`. -/
structure RegEntry where
  socketId : String
  room : String
deriving DecidableEq, Repr

/-- Whole coordinator state: the game store, the game service's `_usedCodes`,
the websocket service's `registeredSockets`, and the socket.io room membership
(pairs `(socketId, room)` currently joined). -/
structure SState where
  games : List Game
  usedCodes : List String
  regs : List RegEntry
  rooms : List (String × String)
deriving DecidableEq, Repr

/-- The empty startup state. -/
def SState.empty : SState := ⟨[], [], [], []⟩

/-- Replies emitted to the requesting socket or broadcast to a room. -/
inductive Reply where
  | errorReply (error : String) (descr : Option String)
  | validationErrorReply (msgs : List String)
  | serverErrorReply
  | joinReply (token : GameTokenData)
  | leaveBroadcast (gameId : String)
  | connectBroadcast (gameId playerId : String)
  | startBroadcast (gameId : String)
deriving DecidableEq, Repr

/-- `WebsocketService.register(room, socket)`: pushes a registry entry and
joins the socket.io room. -/
def register (st : SState) (room socketId : String) : SState :=
  { st with regs := st.regs ++ [⟨socketId, room⟩],
            rooms := st.rooms ++ [(socketId, room)] }

/-- `WebsocketService.unregister(socket)`: finds the first registry entry of
the socket and, if present, leaves that entry's room. The entry itself is
never removed from `registeredSockets`. -/
def unregister (st : SState) (socketId : String) : SState :=
  match st.regs.find? (fun r => r.socketId = socketId) with
  | none => st
  | some r => { st with rooms := st.rooms.filter (fun m => m ≠ (socketId, r.room)) }

/-- Replace the stored game carrying `g'.id` by `g'`
(mongoose `game.save()` on an existing document, with `updatedAt` touched). -/
def saveExisting (games : List Game) (g' : Game) (now : Nat) : List Game :=
  games.map (fun h => if h.id = g'.id then { g' with updatedAt := now } else h)

/-- The `JOIN` handler (part_000 lines 88–120): looks the game up by code,
rejects non-LOBBY games, pushes `{ name }` (store assigns `newPlayerId`,
defaults `author := false`, `score := 0`), saves, and replies with a token for
the appended player. -/
def onJoin (st : SState) (code name newPlayerId : String) (now : Nat) :
    SState × Reply :=
  match st.games.find? (fun g => g.code = some code) with
  | none => (st, .errorReply "not_found" (some "Invalid code"))
  | some game =>
    if ¬ game.starting then
      let descr : Option String :=
        match game.status with
        | Status.TIMER_BETWEEN => some "Game in progress"
        | Status.TIMER_CURRENT => some "Game in progress"
        | Status.FINISHED => some "Game finished"
        | _ => none
      (st, .errorReply "access_denied" descr)
    else
      let game' := { game with
        players := game.players ++ [⟨newPlayerId, name, false, 0⟩] }
      if validateGame game' = [] then
        ({ st with games := saveExisting st.games game' now },
          .joinReply ⟨code, newPlayerId⟩)
      else
        (st, .validationErrorReply (validateGame game'))

/-- The `LEAVE` handler (part_000 lines 123–147): decoded token in hand, looks
the game up by the token's code; an absent player makes `player.author` throw,
caught as a generic server error. The author finishes the game; another player
is removed by `_.remove(game.players, player)` (the `_.matches` shorthand on
the full player object). After a successful save the socket is unregistered
and the updated game broadcast to the room. -/
def onLeave (st : SState) (td : GameTokenData) (socketId : String) (now : Nat) :
    SState × Reply :=
  match st.games.find? (fun g => g.code = some td.code) with
  | none => (st, .errorReply "not_found" (some "Invalid token"))
  | some game =>
    match game.players.find? (fun p => p.id = td.playerId) with
    | none => (st, .serverErrorReply)
    | some player =>
      let game' :=
        if player.author then { game with status := Status.FINISHED }
        else { game with players := game.players.filter (fun q => q ≠ player) }
      if validateGame game' = [] then
        (unregister { st with games := saveExisting st.games game' now } socketId,
          .leaveBroadcast game.id)
      else
        (st, .validationErrorReply (validateGame game'))

/-- The `CONNECT` handler (part_000 lines 150–174): looks the game up by the
token's code, rejects finished games, rejects unknown players, then rebinds
the socket (`unregister` then `register(game.id)`) and broadcasts. -/
def onConnect (st : SState) (td : GameTokenData) (socketId : String) :
    SState × Reply :=
  match st.games.find? (fun g => g.code = some td.code) with
  | none => (st, .errorReply "not_found" (some "Invalid token"))
  | some game =>
    if game.status = Status.FINISHED then
      (st, .errorReply "access_denied" (some "Game is finished"))
    else
      match game.players.find? (fun p => p.id = td.playerId) with
      | none => (st, .errorReply "not_found" (some "Invalid token"))
      | some player =>
        (register (unregister st socketId) game.id socketId,
          .connectBroadcast game.id player.id)

/-- The `START` handler (part_000 lines 177–219): looks the game up by the
token's code, rejects non-LOBBY games and non-author callers, then sets
`playlistId`, `shuffle` and `status := TIMER_BETWEEN` and saves. The game's
`code` and the service's `usedCodes` are not touched. -/
def onStart (st : SState) (td : GameTokenData) (playlistId : String)
    (shuffle : Bool) (now : Nat) : SState × Reply :=
  match st.games.find? (fun g => g.code = some td.code) with
  | none => (st, .errorReply "not_found" (some "Invalid code"))
  | some game =>
    if ¬ game.starting then
      let descr : Option String :=
        match game.status with
        | Status.TIMER_BETWEEN => some "Game in progress"
        | Status.TIMER_CURRENT => some "Game in progress"
        | Status.FINISHED => some "Game finished"
        | _ => none
      (st, .errorReply "access_denied" descr)
    else
      match game.players.find? (fun p => p.id = td.playerId) with
      | none => (st, .errorReply "not_found" (some "Invalid token"))
      | some player =>
        if ¬ player.author then
          (st, .errorReply "access_denied" (some "Only the author can start game"))
        else
          let game' := { game with playlistId := some playlistId,
                                   shuffle := shuffle,
                                   status := Status.TIMER_BETWEEN }
          if validateGame game' = [] then
            ({ st with games := saveExisting st.games game' now },
              .startBroadcast game.id)
          else
            (st, .validationErrorReply (validateGame game'))

/-! ## HTTP game controller and game service -/

/-- Outcome of an HTTP handler, reduced to what the claims need. -/
inductive HttpReply where
  | created (id : String) (code : Option String) (token : GameTokenData)
  | validationFailed (msgs : List String)
  | mintDiverged
  | deleted
  | notFound
deriving DecidableEq, Repr

/-- `GameController.createHandler` (`POST /games`) together with the game
schema's `pre('save')` hook: builds a new document with the single author
player `{ author: true, name }` and schema defaults, validates it, runs the
minting hook, and stores it. `newGameId` / `newPlayerId` are the store-assigned
identities; `seeds` / `fuel` drive the minting loop. -/
def createHandler (cfg : Config) (st : SState) (authorName newGameId newPlayerId : String)
    (seeds : Nat → Nat) (fuel : Nat) (now : Nat) : SState × HttpReply :=
  let g : Game := { id := newGameId, status := Status.INIT, code := none,
                    players := [⟨newPlayerId, authorName, true, 0⟩],
                    playlistId := none, shuffle := true, updatedAt := now }
  if validateGame g = [] then
    match preSaveHook cfg.codeLength g st.usedCodes seeds fuel with
    | none => (st, .mintDiverged)
    | some (g', used') =>
      ({ st with games := st.games ++ [g'], usedCodes := used' },
        .created g'.id g'.code ⟨g'.code.getD "", newPlayerId⟩)
  else
    (st, .validationFailed (validateGame g))

/-- `GameController.deleteHandler` (`DELETE /games/:id`): `findByIdAndDelete`.
The game record is removed from the store; nothing else is touched. -/
def deleteHandler (st : SState) (id : String) : SState × HttpReply :=
  match st.games.find? (fun g => g.id = id) with
  | none => (st, .notFound)
  | some _ => ({ st with games := st.games.filter (fun g => g.id ≠ id) }, .deleted)

/-- `GameService.fetchUsedCodes`: the startup-only rebuild of `_usedCodes` from
the store (`find().where('code').ne(null).select('code')`). -/
def fetchUsedCodes (games : List Game) : List String :=
  games.filterMap (fun g => g.code)

/-- One iteration of the reaper's `inactiveGames.forEach` body: removes the
game's code from `_usedCodes` via `_.remove` (property-shorthand semantics),
sets `status := FINISHED` and `code := null`, and saves; a failing save leaves
the store untouched for that game (the error is logged) but the `_.remove`
mutation stands. -/
def reapOne (st : SState) (g : Game) (now : Nat) : SState :=
  let used' := lodashRemoveByCode st.usedCodes g.code
  let g' := { g with status := Status.FINISHED, code := none }
  if validateGame g' = [] then
    { st with usedCodes := used', games := saveExisting st.games g' now }
  else
    { st with usedCodes := used' }

/-- `GameService.finishInactiveGamesTask`: selects the games with
`status ∈ {INIT, TIMER_BETWEEN, TIMER_CURRENT}` whose `updatedAt` is strictly
before `now - inactiveTime * 60 * 1000`, and reaps each in turn; a failure on
one game does not stop the others. -/
def finishInactiveGamesTask (cfg : Config) (st : SState) (now : Nat) : SState :=
  let limit := now - cfg.inactiveTimeMin * 60 * 1000
  let started := st.games.filter (fun g =>
    g.status = Status.INIT ∨ g.status = Status.TIMER_BETWEEN ∨
      g.status = Status.TIMER_CURRENT)
  let inactive := started.filter (fun g => g.updatedAt < limit)
  inactive.foldl (fun s g => reapOne s g now) st

/-! ## Reachable coordinator states

A state is reachable when it arises from the empty startup state by any
sequence of game creations, joins, connects, starts, leaves and reaper
sweeps. Store-assigned identities are fresh, as the document store
guarantees. -/

inductive Reach (cfg : Config) : SState → Prop where
  | init : Reach cfg SState.empty
  | create (st : SState) (authorName newGameId newPlayerId : String)
      (seeds : Nat → Nat) (fuel now : Nat) :
      Reach cfg st → newGameId ∉ st.games.map Game.id →
      Reach cfg (createHandler cfg st authorName newGameId newPlayerId seeds fuel now).1
  | join (st : SState) (code name newPlayerId : String) (now : Nat) :
      Reach cfg st →
      (∀ g ∈ st.games, ∀ p ∈ g.players, p.id ≠ newPlayerId) →
      Reach cfg (onJoin st code name newPlayerId now).1
  | connect (st : SState) (td : GameTokenData) (socketId : String) :
      Reach cfg st → Reach cfg (onConnect st td socketId).1
  | start (st : SState) (td : GameTokenData) (playlistId : String)
      (shuffle : Bool) (now : Nat) :
      Reach cfg st → Reach cfg (onStart st td playlistId shuffle now).1
  | leave (st : SState) (td : GameTokenData) (socketId : String) (now : Nat) :
      Reach cfg st → Reach cfg (onLeave st td socketId now).1
  | sweep (st : SState) (now : Nat) :
      Reach cfg st → Reach cfg (finishInactiveGamesTask cfg st now)

/-- The inductive invariant maintained by the coordinator: game identities are
distinct; every stored non-null code is tracked in `usedCodes`; stored
non-null codes are pairwise distinct; every unfinished game carries a code;
and `usedCodes` holds only numeric strings of the configured length. -/
def GoodState (cfg : Config) (st : SState) : Prop :=
  (st.games.map Game.id).Nodup ∧
  (∀ g ∈ st.games, ∀ c, g.code = some c → c ∈ st.usedCodes) ∧
  (st.games.filterMap Game.code).Nodup ∧
  (∀ g ∈ st.games, g.status ≠ Status.FINISHED → g.code ≠ none) ∧
  (∀ e ∈ st.usedCodes, numericOfLength e cfg.codeLength)

/-! ## Concrete fixtures -/

/-- A configuration with 4-digit codes and a 10-minute inactivity window. -/
def cfg4 : Config := ⟨4, 10⟩

def pAlice : Player := ⟨"p1", "alice", true, 0⟩

/-- A stored LOBBY game with code `"1234"` and its author as sole player. -/
def gLobby : Game := ⟨"gA", Status.INIT, some "1234", [pAlice], none, true, 0⟩

def gFin : Game := ⟨"gF", Status.FINISHED, some "1256", [pAlice], none, true, 0⟩

def stLobby : SState := ⟨[gLobby], ["1234"], [], []⟩

def stFin : SState := ⟨[gFin], ["1256"], [], []⟩

/-- State after `POST /games` by "alice" from the empty startup state. -/
def sA1 : SState := (createHandler cfg4 SState.empty "alice" "gA" "p1" (fun _ => 0) 1 0).1

/-- State after the author starts the freshly created game. -/
def sA2 : SState := (onStart sA1 ⟨"0000", "p1"⟩ "pl" true 7).1

/-- State after a second game is created by "bob". -/
def sB2 : SState := (createHandler cfg4 sA1 "bob" "gB" "q1" (fun _ => 1) 1 0).1

/-- Socket "S" connects to the first game's room. -/
def sB3 : SState := (onConnect sB2 ⟨"0000", "p1"⟩ "S").1

/-- The same socket then connects to the second game's room. -/
def sB4 : SState := (onConnect sB3 ⟨"0001", "q1"⟩ "S").1

/-- The socket leaves the second game (as its author). -/
def sB5 : SState := (onLeave sB4 ⟨"0001", "q1"⟩ "S" 9).1

def gProg : Game := ⟨"gP", Status.TIMER_CURRENT, some "1250", [pAlice], none, true, 0⟩

def stProg : SState := ⟨[gProg], ["1250"], [], []⟩

/-- A LOBBY game whose roster is already at the 10-player cap. -/
def gFull : Game :=
  ⟨"gG", Status.INIT, some "1260",
    (List.range 10).map (fun i => ⟨toString i, "n", false, 0⟩), none, true, 0⟩

def stFull : SState := ⟨[gFull], ["1260"], [], []⟩

def pBob : Player := ⟨"p2", "bob", false, 0⟩

def stLobbyReg : SState := ⟨[gLobby], ["1234"], [⟨"S", "gA"⟩], [("S", "gA")]⟩

def gPair : Game := ⟨"gA", Status.INIT, some "1234", [pAlice, pBob], none, true, 0⟩

def stPair : SState := ⟨[gPair], ["1234"], [⟨"S", "gA"⟩], [("S", "gA")]⟩

/-- A stale stored game that fails validation on save (empty roster). -/
def gBad : Game := ⟨"gX", Status.INIT, some "1111", [], none, true, 0⟩

/-- A game updated recently enough to lie within the inactivity window. -/
def gFresh : Game := ⟨"gY", Status.INIT, some "2222", [pAlice], none, true, 60000⟩

def stSweep : SState := ⟨[gBad, gLobby, gFresh], ["1111", "1234", "2222"], [], []⟩

/-- The started game in `sA2`: still carrying its join code. -/
def gA2 : Game :=
  ⟨"gA", Status.TIMER_BETWEEN, some "0000", [⟨"p1", "alice", true, 0⟩], some "pl", true, 7⟩

/-- The game stored by the first create in the fixture chain. -/
def gA1 : Game :=
  ⟨"gA", Status.INIT, some "0000", [⟨"p1", "alice", true, 0⟩], none, true, 0⟩

/-! ## Basic lemmas about the embedded operations -/

lemma generateRandomNumeric_numeric (len seed : Nat) :
    numericOfLength (generateRandomNumeric len seed) len := by
  constructor
  · simp [generateRandomNumeric]
  · intro c hc
    simp only [generateRandomNumeric, String.data] at hc
    obtain ⟨i, _, rfl⟩ := List.mem_map.mp hc
    have hd : seed / 10 ^ (len - 1 - i) % 10 < 10 := Nat.mod_lt _ (by norm_num)
    generalize seed / 10 ^ (len - 1 - i) % 10 = d at hd ⊢
    interval_cases d <;> simp

lemma mintLoop_not_mem {len : Nat} {used : List String} {seeds : Nat → Nat}
    {k fuel : Nat} {c : String} (h : mintLoop len used seeds k fuel = some c) :
    c ∉ used := by
  induction fuel generalizing k with
  | zero => simp [mintLoop] at h
  | succ fuel ih =>
    rw [mintLoop] at h
    by_cases hmem : used.contains (generateRandomNumeric len (seeds k))
    · rw [if_pos hmem] at h
      exact ih h
    · rw [if_neg hmem] at h
      cases h
      simpa using hmem

lemma mintLoop_numeric {len : Nat} {used : List String} {seeds : Nat → Nat}
    {k fuel : Nat} {c : String} (h : mintLoop len used seeds k fuel = some c) :
    numericOfLength c len := by
  induction fuel generalizing k with
  | zero => simp [mintLoop] at h
  | succ fuel ih =>
    rw [mintLoop] at h
    by_cases hmem : used.contains (generateRandomNumeric len (seeds k))
    · rw [if_pos hmem] at h
      exact ih h
    · rw [if_neg hmem] at h
      cases h
      exact generateRandomNumeric_numeric len _

lemma mintLoop_succeeds (len : Nat) (used : List String) (seeds : Nat → Nat) :
    ∀ (fuel j : Nat), (∃ m < fuel, generateRandomNumeric len (seeds (j + m)) ∉ used) →
      ∃ c, mintLoop len used seeds j fuel = some c := by
  intro fuel
  induction fuel with
  | zero => rintro j ⟨m, hm, -⟩; omega
  | succ fuel ih =>
    rintro j ⟨m, hm, hesc⟩
    rw [mintLoop]
    by_cases hmem : used.contains (generateRandomNumeric len (seeds j))
    · rw [if_pos hmem]
      rcases m with - | m'
      · simp only [Nat.add_zero] at hesc
        exact absurd (by simpa using hmem) hesc
      · exact ih (j + 1) ⟨m', by omega, by rw [show j + 1 + m' = j + (m' + 1) by omega]; exact hesc⟩
    · rw [if_neg hmem]
      exact ⟨_, rfl⟩

lemma foldNames_eq_nil_iff (ps : List Player) :
    ps.foldr (fun p acc =>
        (if p.name = "" then ["Player name is required"] else []) ++
        (if p.name.length ≤ 16 then [] else ["Player name is too long (16 characters maximum)"]) ++
        acc) [] = [] ↔ ∀ p ∈ ps, p.name ≠ "" ∧ p.name.length ≤ 16 := by
  induction ps with
  | nil => simp
  | cons p tl ih =>
    simp only [List.foldr_cons, List.append_eq_nil, List.mem_cons]
    constructor
    · rintro ⟨⟨h1, h2⟩, h3⟩
      intro q hq
      rcases hq with rfl | hq
      · constructor
        · intro hne; rw [if_pos hne] at h1; cases h1
        · by_contra hlen; rw [if_neg hlen] at h2; cases h2
      · exact (ih.mp h3) q hq
    · intro h
      refine ⟨⟨?_, ?_⟩, ih.mpr (fun q hq => h q (Or.inr hq))⟩
      · rw [if_neg (h p (Or.inl rfl)).1]
      · rw [if_pos (h p (Or.inl rfl)).2]

lemma validateGame_eq_nil_iff (g : Game) :
    validateGame g = [] ↔
      (1 ≤ g.players.length ∧ g.players.length ≤ 10 ∧
        ∀ p ∈ g.players, p.name ≠ "" ∧ p.name.length ≤ 16) := by
  unfold validateGame
  rw [List.append_eq_nil, List.append_eq_nil, foldNames_eq_nil_iff]
  constructor
  · rintro ⟨⟨h1, h2⟩, h3⟩
    refine ⟨?_, ?_, h3⟩
    · by_contra hc; rw [if_neg hc] at h1; cases h1
    · by_contra hc; rw [if_neg hc] at h2; cases h2
  · rintro ⟨h1, h2, h3⟩
    exact ⟨⟨by rw [if_pos h1], by rw [if_pos h2]⟩, h3⟩

lemma validateGame_congr_players {g1 g2 : Game} (h : g1.players = g2.players) :
    validateGame g1 = validateGame g2 := by
  unfold validateGame
  rw [h]

/-! ### The `_.remove` property-shorthand never matches a realistic code -/

lemma digitsFold_lower (l : List Char) (a : Nat) :
    a * 10 ^ l.length ≤ l.foldl (fun a c => a * 10 + (c.toNat - 48)) a := by
  induction l generalizing a with
  | nil => simp
  | cons c tl ih =>
    calc a * 10 ^ (c :: tl).length = (a * 10) * 10 ^ tl.length := by
          simp [List.length_cons, pow_succ]; ring
    _ ≤ (a * 10 + (c.toNat - 48)) * 10 ^ tl.length :=
        Nat.mul_le_mul_right _ (Nat.le_add_right _ _)
    _ ≤ tl.foldl (fun a c => a * 10 + (c.toNat - 48)) (a * 10 + (c.toNat - 48)) := ih _
    _ = (c :: tl).foldl (fun a c => a * 10 + (c.toNat - 48)) a := rfl

lemma jsCanonicalIndex_ge {p : String} {L i : Nat} (hL : 2 ≤ L)
    (hp : numericOfLength p L) (h : jsCanonicalIndex p = some i) :
    10 ^ (L - 1) ≤ i := by
  obtain ⟨hplen, hpdig⟩ := hp
  unfold jsCanonicalIndex at h
  split at h
  case isFalse => cases h
  case isTrue hc =>
    obtain ⟨-, -, hzero⟩ := hc
    rw [Option.some.injEq] at h
    subst h
    rcases hdata : p.data with - | ⟨c0, rest⟩
    · rw [hdata] at hplen; simp at hplen; omega
    · have hc0 : 48 ≤ c0.toNat ∧ c0.toNat ≤ 57 :=
        hpdig c0 (by rw [hdata]; exact List.mem_cons_self _ _)
      have hc0ne : c0 ≠ '0' := by
        intro hz
        have h0 : p.data = ['0'] := hzero (by rw [hdata, hz]; rfl)
        rw [h0] at hplen
        simp at hplen; omega
      have hc0ge : 49 ≤ c0.toNat := by
        rcases Nat.lt_or_ge c0.toNat 49 with hlt | hge
        · exfalso
          apply hc0ne
          have h48 : c0.toNat = 48 := by omega
          have hv : c0.val = ('0' : Char).val := by
            apply UInt32.toNat.inj
            simpa [Char.toNat] using h48
          exact Char.ext hv
        · exact hge
      have hrest : rest.length = L - 1 := by
        rw [hdata] at hplen; simp at hplen; omega
      have h1 : (c0.toNat - 48) * 10 ^ rest.length ≤
          rest.foldl (fun a c => a * 10 + (c.toNat - 48)) (c0.toNat - 48) :=
        digitsFold_lower rest _
      have h2 : 10 ^ (L - 1) ≤ (c0.toNat - 48) * 10 ^ rest.length := by
        rw [hrest]
        have hone : 1 ≤ c0.toNat - 48 := by omega
        calc 10 ^ (L - 1) = 1 * 10 ^ (L - 1) := by ring
        _ ≤ (c0.toNat - 48) * 10 ^ (L - 1) := Nat.mul_le_mul_right _ hone
      calc 10 ^ (L - 1) ≤ (c0.toNat - 48) * 10 ^ rest.length := h2
      _ ≤ rest.foldl (fun a c => a * 10 + (c.toNat - 48)) (c0.toNat - 48) := h1
      _ = (c0 :: rest).foldl (fun a c => a * 10 + (c.toNat - 48)) 0 := by
          simp [List.foldl_cons]

lemma lodashPropTruthy_eq_false {e p : String} {L : Nat} (hL : 2 ≤ L)
    (hp : numericOfLength p L) (he : e.data.length ≤ L) :
    lodashPropTruthy e p = false := by
  unfold lodashPropTruthy
  split
  case h_1 i heq =>
    have hge := jsCanonicalIndex_ge hL hp heq
    have hLpow : L ≤ 10 ^ (L - 1) := by
      have h10 : (1 : Nat) < 10 := by norm_num
      have hlp := Nat.lt_pow_self h10 (L - 1)
      omega
    simp only [decide_eq_false_iff_not, Nat.not_lt]
    omega
  case h_2 => rfl

lemma lodashRemoveByCode_eq_self {arr : List String} {c : String} {L : Nat}
    (hL : 2 ≤ L) (hc : numericOfLength c L)
    (harr : ∀ e ∈ arr, e.data.length ≤ L) :
    lodashRemoveByCode arr (some c) = arr := by
  unfold lodashRemoveByCode
  apply List.filter_eq_self.mpr
  intro e he
  rw [lodashPropTruthy_eq_false hL hc (harr e he)]
  simp

/-! ### Lemmas about `saveExisting` -/

lemma mem_saveExisting {games : List Game} {g' : Game} {now : Nat} {h : Game}
    (hm : h ∈ saveExisting games g' now) :
    h ∈ games ∨ h = { g' with updatedAt := now } := by
  unfold saveExisting at hm
  obtain ⟨a, ha, hah⟩ := List.mem_map.mp hm
  by_cases hid : a.id = g'.id
  · rw [if_pos hid] at hah
    exact Or.inr hah.symm
  · rw [if_neg hid] at hah
    exact Or.inl (hah ▸ ha)

lemma saveExisting_map_id (games : List Game) (g' : Game) (now : Nat) :
    (saveExisting games g' now).map Game.id = games.map Game.id := by
  unfold saveExisting
  rw [List.map_map]
  apply List.map_congr_left
  intro a _
  by_cases hid : a.id = g'.id
  · simp [hid]
  · simp [hid]

lemma saveExisting_filterMap_code_eq {games : List Game} {g' : Game} (now : Nat)
    (hc : ∀ h ∈ games, h.id = g'.id → h.code = g'.code) :
    (saveExisting games g' now).filterMap Game.code = games.filterMap Game.code := by
  unfold saveExisting
  rw [List.filterMap_map]
  apply List.filterMap_congr
  intro a ha
  by_cases hid : a.id = g'.id
  · simp only [Function.comp_apply, if_pos hid]
    exact (hc a ha hid).symm
  · simp only [Function.comp_apply, if_neg hid]

lemma filterMap_sublist_of_forall {α β : Type} {l : List α} {f g : α → Option β}
    (h : ∀ a ∈ l, f a = g a ∨ f a = none) :
    List.Sublist (l.filterMap f) (l.filterMap g) := by
  induction l with
  | nil => simp
  | cons a tl ih =>
    have ihtl := ih (fun b hb => h b (List.mem_cons_of_mem _ hb))
    rw [List.filterMap_cons, List.filterMap_cons]
    rcases h a (List.mem_cons_self _ _) with heq | hnone
    · rw [heq]
      cases g a with
      | none => exact ihtl
      | some b => exact List.Sublist.cons₂ _ ihtl
    · rw [hnone]
      cases g a with
      | none => exact ihtl
      | some b => exact List.Sublist.cons _ ihtl

lemma saveExisting_filterMap_code_sublist {games : List Game} {g' : Game} (now : Nat)
    (hc : g'.code = none) :
    List.Sublist ((saveExisting games g' now).filterMap Game.code)
      (games.filterMap Game.code) := by
  unfold saveExisting
  rw [List.filterMap_map]
  apply filterMap_sublist_of_forall
  intro a _
  by_cases hid : a.id = g'.id
  · right
    simp only [Function.comp_apply, if_pos hid]
    exact hc
  · left
    simp only [Function.comp_apply, if_neg hid]

lemma register_games (st : SState) (room sid : String) :
    (register st room sid).games = st.games ∧
      (register st room sid).usedCodes = st.usedCodes := ⟨rfl, rfl⟩

lemma unregister_games (st : SState) (sid : String) :
    (unregister st sid).games = st.games ∧
      (unregister st sid).usedCodes = st.usedCodes := by
  unfold unregister
  cases st.regs.find? (fun r => r.socketId = sid) with
  | none => exact ⟨rfl, rfl⟩
  | some r => exact ⟨rfl, rfl⟩

/-! ## The code/status invariant over reachable states -/

lemma GoodState.saveExisting_pres {cfg : Config} {st : SState} {g g' : Game}
    (hg : GoodState cfg st) (hmem : g ∈ st.games) (hid : g'.id = g.id)
    (hcode : g'.code = g.code)
    (hstat : g'.status ≠ Status.FINISHED → g'.code ≠ none) (now : Nat) :
    GoodState cfg { st with games := saveExisting st.games g' now } := by
  obtain ⟨h1, h2, h3, h4, h5⟩ := hg
  refine ⟨?_, ?_, ?_, ?_, h5⟩
  · rw [saveExisting_map_id]
    exact h1
  · intro h hm c hc
    rcases mem_saveExisting hm with hmold | rfl
    · exact h2 h hmold c hc
    · exact h2 g hmem c (by rw [← hcode]; exact hc)
  · rw [saveExisting_filterMap_code_eq now]
    · exact h3
    · intro h hm hhid
      have heq : h = g := List.inj_on_of_nodup_map h1 hm hmem (by rw [hhid, hid])
      rw [heq, hcode]
  · intro h hm hs
    rcases mem_saveExisting hm with hmold | rfl
    · exact h4 h hmold hs
    · exact hstat hs

lemma GoodState.empty (cfg : Config) : GoodState cfg SState.empty := by
  refine ⟨?_, ?_, ?_, ?_, ?_⟩ <;> simp [SState.empty]

lemma GoodState.register_pres {cfg : Config} {st : SState} (hg : GoodState cfg st)
    (room sid : String) : GoodState cfg (register st room sid) := hg

lemma GoodState.unregister_pres {cfg : Config} {st : SState} (hg : GoodState cfg st)
    (sid : String) : GoodState cfg (unregister st sid) := by
  unfold unregister
  cases st.regs.find? (fun r => r.socketId = sid) with
  | none => exact hg
  | some r => exact hg

lemma GoodState.onJoin_pres {cfg : Config} {st : SState} (hg : GoodState cfg st)
    (code name pid : String) (now : Nat) :
    GoodState cfg (onJoin st code name pid now).1 := by
  unfold onJoin
  cases hfind : st.games.find? (fun g => g.code = some code) with
  | none => exact hg
  | some g =>
    have hmem : g ∈ st.games := List.mem_of_find?_eq_some hfind
    dsimp only
    split
    · exact hg
    · split
      · refine GoodState.saveExisting_pres hg hmem ?_ ?_ ?_ now
        · rfl
        · rfl
        · exact fun hs => hg.2.2.2.1 g hmem hs
      · exact hg

lemma GoodState.onStart_pres {cfg : Config} {st : SState} (hg : GoodState cfg st)
    (td : GameTokenData) (playlistId : String) (shuffle : Bool) (now : Nat) :
    GoodState cfg (onStart st td playlistId shuffle now).1 := by
  unfold onStart
  cases hfind : st.games.find? (fun g => g.code = some td.code) with
  | none => exact hg
  | some g =>
    have hmem : g ∈ st.games := List.mem_of_find?_eq_some hfind
    have hcode : g.code = some td.code := by simpa using List.find?_some hfind
    dsimp only
    split
    · exact hg
    · cases hp : g.players.find? (fun p => p.id = td.playerId) with
      | none => exact hg
      | some player =>
        dsimp only
        split
        · exact hg
        · split
          · refine GoodState.saveExisting_pres hg hmem ?_ ?_ ?_ now
            · rfl
            · rfl
            · intro hs
              show g.code ≠ none
              rw [hcode]
              simp
          · exact hg

lemma GoodState.onLeave_pres {cfg : Config} {st : SState} (hg : GoodState cfg st)
    (td : GameTokenData) (sid : String) (now : Nat) :
    GoodState cfg (onLeave st td sid now).1 := by
  unfold onLeave
  cases hfind : st.games.find? (fun g => g.code = some td.code) with
  | none => exact hg
  | some g =>
    have hmem : g ∈ st.games := List.mem_of_find?_eq_some hfind
    dsimp only
    cases hp : g.players.find? (fun p => p.id = td.playerId) with
    | none => exact hg
    | some player =>
      dsimp only
      by_cases hauth : player.author
      · simp only [if_pos hauth]
        split
        · refine GoodState.unregister_pres ?_ sid
          refine GoodState.saveExisting_pres hg hmem ?_ ?_ ?_ now
          · rfl
          · rfl
          · exact fun hs => absurd rfl hs
        · exact hg
      · simp only [if_neg hauth]
        split
        · refine GoodState.unregister_pres ?_ sid
          refine GoodState.saveExisting_pres hg hmem ?_ ?_ ?_ now
          · rfl
          · rfl
          · exact fun hs => hg.2.2.2.1 g hmem hs
        · exact hg

lemma GoodState.onConnect_pres {cfg : Config} {st : SState} (hg : GoodState cfg st)
    (td : GameTokenData) (sid : String) :
    GoodState cfg (onConnect st td sid).1 := by
  unfold onConnect
  cases hfind : st.games.find? (fun g => g.code = some td.code) with
  | none => exact hg
  | some g =>
    dsimp only
    split
    · exact hg
    · cases hp : g.players.find? (fun p => p.id = td.playerId) with
      | none => exact hg
      | some player => exact ((hg.unregister_pres sid).register_pres g.id sid)

lemma GoodState.createHandler_pres {cfg : Config} {st : SState} (hg : GoodState cfg st)
    (authorName newGameId newPlayerId : String) (seeds : Nat → Nat) (fuel now : Nat)
    (hfresh : newGameId ∉ st.games.map Game.id) :
    GoodState cfg (createHandler cfg st authorName newGameId newPlayerId seeds fuel now).1 := by
  obtain ⟨h1, h2, h3, h4, h5⟩ := hg
  unfold createHandler
  dsimp only
  split
  · cases hmint : mintLoop cfg.codeLength st.usedCodes seeds 0 fuel with
    | none => simp only [preSaveHook, hmint]; exact ⟨h1, h2, h3, h4, h5⟩
    | some c =>
      have hcfresh : c ∉ st.usedCodes := mintLoop_not_mem hmint
      have hcnum : numericOfLength c cfg.codeLength := mintLoop_numeric hmint
      simp only [preSaveHook, hmint]
      refine ⟨?_, ?_, ?_, ?_, ?_⟩
      · rw [List.map_append]
        simp only [List.map_cons, List.map_nil]
        rw [List.nodup_append]
        exact ⟨h1, List.nodup_singleton _, by simpa using fun hmem => hfresh hmem⟩
      · intro h hm c' hc'
        rcases List.mem_append.mp hm with hmold | hmnew
        · exact List.mem_append_left _ (h2 h hmold c' hc')
        · have heq := List.mem_singleton.mp hmnew
          subst heq
          simp only at hc'
          cases hc'
          exact List.mem_append_right _ (List.mem_singleton_self _)
      · rw [List.filterMap_append]
        simp only [List.filterMap_cons, List.filterMap_nil]
        rw [List.nodup_append]
        refine ⟨h3, List.nodup_singleton _, ?_⟩
        intro a ha hb
        simp only [List.mem_singleton] at hb
        subst hb
        obtain ⟨gg, hgg, hggc⟩ := List.mem_filterMap.mp ha
        exact hcfresh (h2 gg hgg a hggc)
      · intro h hm hs
        rcases List.mem_append.mp hm with hmold | hmnew
        · exact h4 h hmold hs
        · have heq := List.mem_singleton.mp hmnew
          subst heq
          simp
      · intro e he
        rcases List.mem_append.mp he with heold | henew
        · exact h5 e heold
        · rw [List.mem_singleton.mp henew]
          exact hcnum
  · exact ⟨h1, h2, h3, h4, h5⟩

lemma GoodState.reapOne_pres {cfg : Config} {st : SState} {g : Game}
    (hL : 2 ≤ cfg.codeLength) (hg : GoodState cfg st)
    (hgc : ∃ c, g.code = some c ∧ numericOfLength c cfg.codeLength) (now : Nat) :
    GoodState cfg (reapOne st g now) := by
  obtain ⟨c, hc, hcnum⟩ := hgc
  obtain ⟨h1, h2, h3, h4, h5⟩ := hg
  have hused : lodashRemoveByCode st.usedCodes g.code = st.usedCodes := by
    rw [hc]
    exact lodashRemoveByCode_eq_self hL hcnum (fun e he => (h5 e he).1.le)
  unfold reapOne
  rw [hused]
  dsimp only
  split
  · refine ⟨?_, ?_, ?_, ?_, h5⟩
    · rw [saveExisting_map_id]; exact h1
    · intro h hm c' hc'
      rcases mem_saveExisting hm with hmold | rfl
      · exact h2 h hmold c' hc'
      · cases hc'
    · exact h3.sublist (saveExisting_filterMap_code_sublist now rfl)
    · intro h hm hs
      rcases mem_saveExisting hm with hmold | rfl
      · exact h4 h hmold hs
      · exact absurd rfl hs
  · exact ⟨h1, h2, h3, h4, h5⟩

lemma GoodState.reapFold {cfg : Config} (hL : 2 ≤ cfg.codeLength) (now : Nat) :
    ∀ (l : List Game) (st : SState), GoodState cfg st →
      (∀ g ∈ l, ∃ c, g.code = some c ∧ numericOfLength c cfg.codeLength) →
      GoodState cfg (l.foldl (fun s g => reapOne s g now) st) := by
  intro l
  induction l with
  | nil => intro st hg _; exact hg
  | cons a tl ih =>
    intro st hg hl
    rw [List.foldl_cons]
    exact ih _ (hg.reapOne_pres hL (hl a (List.mem_cons_self _ _)) now)
      (fun g hgm => hl g (List.mem_cons_of_mem _ hgm))

lemma GoodState.sweep_pres {cfg : Config} {st : SState} (hL : 2 ≤ cfg.codeLength)
    (hg : GoodState cfg st) (now : Nat) :
    GoodState cfg (finishInactiveGamesTask cfg st now) := by
  unfold finishInactiveGamesTask
  apply GoodState.reapFold hL now _ _ hg
  intro g hgm
  rw [List.mem_filter] at hgm
  obtain ⟨hgm1, -⟩ := hgm
  rw [List.mem_filter] at hgm1
  obtain ⟨hmem, hstatus⟩ := hgm1
  have hnfin : g.status ≠ Status.FINISHED := by
    intro hfin
    rw [hfin] at hstatus
    simp at hstatus
  have hcode := hg.2.2.2.1 g hmem hnfin
  cases hc : g.code with
  | none => exact absurd hc hcode
  | some c =>
    exact ⟨c, rfl, hg.2.2.2.2 c (hg.2.1 g hmem c hc)⟩

/-- Every reachable state satisfies the inductive invariant, provided the
configured code length is at least 2. -/
lemma reach_goodState {cfg : Config} {st : SState} (hL : 2 ≤ cfg.codeLength)
    (h : Reach cfg st) : GoodState cfg st := by
  induction h with
  | init => exact GoodState.empty cfg
  | create st authorName newGameId newPlayerId seeds fuel now _ hfresh ih =>
      exact ih.createHandler_pres authorName newGameId newPlayerId seeds fuel now hfresh
  | join st code name newPlayerId now _ _ ih => exact ih.onJoin_pres code name newPlayerId now
  | connect st td socketId _ ih => exact ih.onConnect_pres td socketId
  | start st td playlistId shuffle now _ ih => exact ih.onStart_pres td playlistId shuffle now
  | leave st td socketId now _ ih => exact ih.onLeave_pres td socketId now
  | sweep st now _ ih => exact ih.sweep_pres hL now

/-! ## Claim theorems -/

/-- C3: for every save of a new game document, assuming the random generator
eventually yields a value outside the given used set, the pre-save hook assigns
the game a numeric code of the configured length that is not in `usedCodes` at
the moment of assignment, and appends exactly that code to `usedCodes`. -/
theorem preSaveHook_mints_fresh_code (len : Nat) (g : Game) (used : List String)
    (seeds : Nat → Nat) (k : Nat)
    (hesc : generateRandomNumeric len (seeds k) ∉ used) :
    ∃ fuel c, preSaveHook len g used seeds fuel =
        some ({ g with code := some c }, used ++ [c]) ∧
      c ∉ used ∧ numericOfLength c len := by
  obtain ⟨c, hc⟩ := mintLoop_succeeds len used seeds (k + 1) 0 ⟨k, by omega, by simpa using hesc⟩
  refine ⟨k + 1, c, ?_, mintLoop_not_mem hc, mintLoop_numeric hc⟩
  unfold preSaveHook
  rw [hc]

theorem preSaveHook_mints_fresh_code_witness :
    ∃ fuel c, preSaveHook 4 gLobby ["1234"] (fun n => n) fuel =
        some ({ gLobby with code := some c }, ["1234"] ++ [c]) ∧
      c ∉ ["1234"] ∧ numericOfLength c 4 :=
  preSaveHook_mints_fresh_code 4 gLobby ["1234"] (fun n => n) 0 (by decide)

/-- C7: a CONNECT whose token decodes but matches no stored session is answered
with a NotFound error, and one matching a FINISHED session is answered with an
AccessDenied error described "Game is finished". -/
theorem onConnect_error_spec (st : SState) (td : GameTokenData) (sid : String) :
    (st.games.find? (fun g => g.code = some td.code) = none →
      onConnect st td sid = (st, Reply.errorReply "not_found" (some "Invalid token"))) ∧
    (∀ g, st.games.find? (fun g => g.code = some td.code) = some g →
      g.status = Status.FINISHED →
      onConnect st td sid = (st, Reply.errorReply "access_denied" (some "Game is finished"))) := by
  constructor
  · intro h
    unfold onConnect
    rw [h]
  · intro g hg hfin
    unfold onConnect
    rw [hg]
    dsimp only
    rw [if_pos hfin]

theorem onConnect_error_spec_witness :
    onConnect stLobby ⟨"9999", "p1"⟩ "S" =
      (stLobby, Reply.errorReply "not_found" (some "Invalid token")) ∧
    onConnect stFin ⟨"1256", "p1"⟩ "S" =
      (stFin, Reply.errorReply "access_denied" (some "Game is finished")) :=
  ⟨(onConnect_error_spec stLobby ⟨"9999", "p1"⟩ "S").1 (by decide),
   (onConnect_error_spec stFin ⟨"1256", "p1"⟩ "S").2 gFin (by decide) (by decide)⟩

/-- C9: a LEAVE whose token decodes and matches a stored session, but whose
playerId matches no player of that session, is answered with the generic
server-error shape and leaves the state untouched (the save is never reached):
`player` is `undefined` and `player.author` throws, caught by the generic
handler. -/
theorem onLeave_unknown_player_server_error (st : SState) (td : GameTokenData)
    (sid : String) (now : Nat) (g : Game)
    (hg : st.games.find? (fun x => x.code = some td.code) = some g)
    (hp : g.players.find? (fun p => p.id = td.playerId) = none) :
    onLeave st td sid now = (st, Reply.serverErrorReply) := by
  unfold onLeave
  rw [hg]
  dsimp only
  rw [hp]

theorem onLeave_unknown_player_server_error_witness :
    onLeave stLobby ⟨"1234", "zz"⟩ "S" 5 = (stLobby, Reply.serverErrorReply) :=
  onLeave_unknown_player_server_error stLobby ⟨"1234", "zz"⟩ "S" 5 gLobby
    (by decide) (by decide)

/-- C10: deleting a game removes the record from the store but leaves
`usedCodes` untouched, so the deleted game's code stays un-mintable until the
process restarts and `fetchUsedCodes` rebuilds the set from the store (which
then no longer contains it). -/
theorem deleteHandler_keeps_usedCodes (st : SState) (i c : String) (g : Game)
    (hfind : st.games.find? (fun x => x.id = i) = some g)
    (hcode : g.code = some c) (hused : c ∈ st.usedCodes)
    (huniq : ∀ h ∈ st.games, h.code = some c → h.id = i) :
    (deleteHandler st i).1.games = st.games.filter (fun x => x.id ≠ i) ∧
    (deleteHandler st i).1.usedCodes = st.usedCodes ∧
    c ∈ (deleteHandler st i).1.usedCodes ∧
    (∀ (len : Nat) (seeds : Nat → Nat) (k fuel : Nat) (c' : String),
      mintLoop len (deleteHandler st i).1.usedCodes seeds k fuel = some c' → c' ≠ c) ∧
    c ∉ fetchUsedCodes (deleteHandler st i).1.games := by
  have hdel : deleteHandler st i =
      ({ st with games := st.games.filter (fun g => g.id ≠ i) }, HttpReply.deleted) := by
    unfold deleteHandler
    rw [hfind]
  rw [hdel]
  refine ⟨rfl, rfl, hused, ?_, ?_⟩
  · intro len seeds k fuel c' hm hcc
    subst hcc
    exact mintLoop_not_mem hm hused
  · intro hmemfetch
    obtain ⟨h, hm, hc⟩ := List.mem_filterMap.mp hmemfetch
    rw [List.mem_filter] at hm
    obtain ⟨hmem, hni⟩ := hm
    have := huniq h hmem hc
    simp [this] at hni

theorem deleteHandler_keeps_usedCodes_witness :
    (deleteHandler stLobby "gA").1.games = stLobby.games.filter (fun x => x.id ≠ "gA") ∧
    (deleteHandler stLobby "gA").1.usedCodes = stLobby.usedCodes ∧
    "1234" ∈ (deleteHandler stLobby "gA").1.usedCodes ∧
    (∀ (len : Nat) (seeds : Nat → Nat) (k fuel : Nat) (c' : String),
      mintLoop len (deleteHandler stLobby "gA").1.usedCodes seeds k fuel = some c' →
        c' ≠ "1234") ∧
    "1234" ∉ fetchUsedCodes (deleteHandler stLobby "gA").1.games :=
  deleteHandler_keeps_usedCodes stLobby "gA" "1234" gLobby (by decide) (by decide)
    (by decide) (by decide)

/-- C8 counterexample: after a socket connects to two games in succession, the
connection registry holds two entries for the same connection identifier — the
prior entry is not removed on rebinding, refuting the claimed at-most-one-entry
invariant. -/
theorem register_accumulates_entries :
    Reach cfg4 sB4 ∧
    sB4.regs = [⟨"S", "gA"⟩, ⟨"S", "gB"⟩] ∧
    (sB4.regs.map RegEntry.socketId) = ["S", "S"] := by
  refine ⟨?_, by decide, by decide⟩
  exact Reach.connect sB3 ⟨"0001", "q1"⟩ "S"
    (Reach.connect sB2 ⟨"0000", "p1"⟩ "S"
      (Reach.create sA1 "bob" "gB" "q1" (fun _ => 1) 1 0
        (Reach.create SState.empty "alice" "gA" "p1" (fun _ => 0) 1 0
          Reach.init (by decide))
        (by decide)))

/-- C8 amended: `register` appends a registry entry without removing any prior
entry of the connection, and `unregister` never removes registry entries (it
only makes the socket leave the room of its oldest entry); hence a connection
identifier can occur in several `(connectionId, roomId)` entries. -/
theorem register_unregister_registry_spec (st : SState) (room sid : String) :
    (register st room sid).regs = st.regs ++ [⟨sid, room⟩] ∧
    (unregister st sid).regs = st.regs := by
  refine ⟨rfl, ?_⟩
  unfold unregister
  cases st.regs.find? (fun r => r.socketId = sid) with
  | none => rfl
  | some r => rfl


/-- C2 counterexample: an authorized START on a LOBBY session transitions the
status but leaves the session's code `"1234"` in place and `usedCodes`
untouched — the code is neither cleared nor released, refuting the claim. -/
theorem start_retains_code_and_usedCodes :
    (onStart stLobby ⟨"1234", "p1"⟩ "pl" false 5).1.games.map Game.code = [some "1234"] ∧
    (onStart stLobby ⟨"1234", "p1"⟩ "pl" false 5).1.games.map Game.status =
      [Status.TIMER_BETWEEN] ∧
    (onStart stLobby ⟨"1234", "p1"⟩ "pl" false 5).1.usedCodes = ["1234"] := by
  decide

/-- C2 amended: a START carrying a valid token of the author of a LOBBY
session sets the playlist reference and shuffle flag and transitions the
status to `TIMER_BETWEEN`, but the session's code and the allocator's
`usedCodes` are left unchanged (the handler performs no code release). -/
theorem onStart_author_lobby_spec (st : SState) (td : GameTokenData) (pl : String)
    (sh : Bool) (now : Nat) (g : Game) (p : Player)
    (hg : st.games.find? (fun x => x.code = some td.code) = some g)
    (hstart : g.status = Status.INIT)
    (hp : g.players.find? (fun q => q.id = td.playerId) = some p)
    (hauth : p.author = true) (hval : validGame g) :
    onStart st td pl sh now =
      ({ st with
          games := saveExisting st.games
            { g with
                playlistId := some pl, shuffle := sh, status := Status.TIMER_BETWEEN } now },
        Reply.startBroadcast g.id) ∧
    ({ g with
        playlistId := some pl, shuffle := sh, status := Status.TIMER_BETWEEN } : Game).code =
      g.code ∧
    (onStart st td pl sh now).1.usedCodes = st.usedCodes := by
  have hstarting : g.starting = true := by
    simp [Game.starting, hstart]
  have heq : onStart st td pl sh now =
      ({ st with
          games := saveExisting st.games
            { g with
                playlistId := some pl, shuffle := sh, status := Status.TIMER_BETWEEN } now },
        Reply.startBroadcast g.id) := by
    unfold onStart
    rw [hg]
    dsimp only
    rw [if_neg (by rw [hstarting]; simp)]
    rw [hp]
    dsimp only
    rw [if_neg (by rw [hauth]; simp)]
    rw [if_pos (by rw [validateGame_congr_players rfl]; exact hval)]
  refine ⟨heq, rfl, ?_⟩
  rw [heq]

theorem onStart_author_lobby_spec_witness :
    onStart stLobby ⟨"1234", "p1"⟩ "pl" false 5 =
      ({ stLobby with
          games := saveExisting stLobby.games
            { gLobby with
                playlistId := some "pl", shuffle := false,
                status := Status.TIMER_BETWEEN } 5 },
        Reply.startBroadcast gLobby.id) ∧
    ({ gLobby with
        playlistId := some "pl", shuffle := false,
        status := Status.TIMER_BETWEEN } : Game).code = gLobby.code ∧
    (onStart stLobby ⟨"1234", "p1"⟩ "pl" false 5).1.usedCodes = stLobby.usedCodes :=
  onStart_author_lobby_spec stLobby ⟨"1234", "p1"⟩ "pl" false 5 gLobby pAlice
    (by decide) (by decide) (by decide) (by decide) (by decide)


/-- C4 counterexample: a JOIN on a LOBBY session with fewer than 10 players
but an over-long name (17 characters) is answered with a ValidationError and
no player is appended — refuting the claim that every JOIN on a LOBBY session
with room appends a player and returns a token. -/
theorem join_invalid_name_rejected :
    gLobby.status = Status.INIT ∧ gLobby.players.length < 10 ∧
    onJoin stLobby "1234" "aaaaaaaaaaaaaaaaa" "p2" 5 =
      (stLobby, Reply.validationErrorReply
        ["Player name is too long (16 characters maximum)"]) := by
  decide

/-- C4 amended: a JOIN for an unknown code is NotFound; on an in-progress
session it is AccessDenied "Game in progress" and on a finished one
AccessDenied "Game finished"; on a LOBBY session with fewer than 10 players
and a valid name (non-empty, at most 16 characters) it appends a player with
`author = false` and returns a token for that player; with a full roster of 10
the reply is a ValidationError and the stored roster is unchanged. -/
theorem onJoin_spec (st : SState) (code name pid : String) (now : Nat) :
    (st.games.find? (fun g => g.code = some code) = none →
      onJoin st code name pid now = (st, Reply.errorReply "not_found" (some "Invalid code"))) ∧
    (∀ g, st.games.find? (fun g => g.code = some code) = some g → validGame g →
      ((g.status = Status.TIMER_BETWEEN ∨ g.status = Status.TIMER_CURRENT) →
        onJoin st code name pid now =
          (st, Reply.errorReply "access_denied" (some "Game in progress"))) ∧
      (g.status = Status.FINISHED →
        onJoin st code name pid now =
          (st, Reply.errorReply "access_denied" (some "Game finished"))) ∧
      (g.status = Status.INIT → name ≠ "" → name.length ≤ 16 →
        g.players.length < 10 →
        onJoin st code name pid now =
          ({ st with
              games := saveExisting st.games
                { g with
                    players := g.players ++ [⟨pid, name, false, 0⟩] } now },
            Reply.joinReply ⟨code, pid⟩)) ∧
      (g.status = Status.INIT → g.players.length = 10 →
        (onJoin st code name pid now).1 = st ∧
        ∃ msgs, msgs ≠ [] ∧
          (onJoin st code name pid now).2 = Reply.validationErrorReply msgs)) := by
  constructor
  · intro h
    unfold onJoin
    rw [h]
  · intro g hg hval
    refine ⟨?_, ?_, ?_, ?_⟩
    · intro hst
      have hns : g.starting = false := by
        rcases hst with hst | hst <;> simp [Game.starting, hst]
      unfold onJoin
      rw [hg]
      dsimp only
      rw [if_pos (by rw [hns]; simp)]
      rcases hst with hst | hst <;> rw [hst]
    · intro hst
      have hns : g.starting = false := by
        simp [Game.starting, hst]
      unfold onJoin
      rw [hg]
      dsimp only
      rw [if_pos (by rw [hns]; simp)]
      rw [hst]
    · intro hst hne hlen hroom
      have hs : g.starting = true := by
        simp [Game.starting, hst]
      have hv' : validateGame
          { g with players := g.players ++ [⟨pid, name, false, 0⟩] } = [] := by
        rw [validateGame_eq_nil_iff]
        obtain ⟨-, -, hnames⟩ := (validateGame_eq_nil_iff g).mp hval
        refine ⟨by simp, by simp; omega, ?_⟩
        intro p hp
        rcases List.mem_append.mp hp with hpo | hpn
        · exact hnames p hpo
        · rw [List.mem_singleton.mp hpn]
          exact ⟨hne, hlen⟩
      unfold onJoin
      rw [hg]
      dsimp only
      rw [if_neg (by rw [hs]; simp)]
      rw [if_pos hv']
    · intro hst hfull
      have hs : g.starting = true := by
        simp [Game.starting, hst]
      have hv' : validateGame
          { g with players := g.players ++ [⟨pid, name, false, 0⟩] } ≠ [] := by
        intro heq
        obtain ⟨-, hle, -⟩ := (validateGame_eq_nil_iff _).mp heq
        simp at hle
        omega
      unfold onJoin
      rw [hg]
      dsimp only
      rw [if_neg (by rw [hs]; simp)]
      rw [if_neg hv']
      exact ⟨rfl, _, hv', rfl⟩


theorem onJoin_spec_witness :
    (onJoin stLobby "9999" "bob" "p2" 5 =
      (stLobby, Reply.errorReply "not_found" (some "Invalid code"))) ∧
    (onJoin stProg "1250" "bob" "p2" 5 =
      (stProg, Reply.errorReply "access_denied" (some "Game in progress"))) ∧
    (onJoin stFin "1256" "bob" "p2" 5 =
      (stFin, Reply.errorReply "access_denied" (some "Game finished"))) ∧
    (onJoin stLobby "1234" "bob" "p2" 5 =
      ({ stLobby with
          games := saveExisting stLobby.games
            { gLobby with
                players := gLobby.players ++ [⟨"p2", "bob", false, 0⟩] } 5 },
        Reply.joinReply ⟨"1234", "p2"⟩)) ∧
    ((onJoin stFull "1260" "bob" "p2" 5).1 = stFull ∧
      ∃ msgs, msgs ≠ [] ∧
        (onJoin stFull "1260" "bob" "p2" 5).2 = Reply.validationErrorReply msgs) :=
  ⟨(onJoin_spec stLobby "9999" "bob" "p2" 5).1 (by decide),
   ((onJoin_spec stProg "1250" "bob" "p2" 5).2 gProg (by decide) (by decide)).1
     (Or.inr (by decide)),
   (((onJoin_spec stFin "1256" "bob" "p2" 5).2 gFin (by decide) (by decide)).2).1 (by decide),
   ((((onJoin_spec stLobby "1234" "bob" "p2" 5).2 gLobby (by decide) (by decide)).2).2).1
     (by decide) (by decide) (by decide) (by decide),
   ((((onJoin_spec stFull "1260" "bob" "p2" 5).2 gFull (by decide) (by decide)).2).2).2
     (by decide) (by decide)⟩


lemma filter_ne_length_of_nodup_key {ps : List Player} {p : Player}
    (hnd : (ps.map Player.id).Nodup) (hp : p ∈ ps) :
    (ps.filter (fun q => q ≠ p)).length + 1 = ps.length := by
  induction ps with
  | nil => cases hp
  | cons a tl ih =>
    rw [List.map_cons, List.nodup_cons] at hnd
    obtain ⟨hida, hndtl⟩ := hnd
    by_cases hap : a = p
    · subst hap
      have htl : tl.filter (fun q => q ≠ a) = tl := by
        apply List.filter_eq_self.mpr
        intro q hq
        simp only [decide_eq_true_eq]
        intro hqa
        exact hida (hqa ▸ List.mem_map_of_mem Player.id hq)
      rw [List.filter_cons]
      simp only [decide_eq_true_eq]
      rw [if_neg (by simp)]
      rw [htl]
      simp
    · have hptl : p ∈ tl := by
        rcases List.mem_cons.mp hp with heq | htl
        · exact absurd heq.symm hap
        · exact htl
      rw [List.filter_cons]
      simp only [decide_eq_true_eq]
      rw [if_pos (by simpa using hap)]
      simp only [List.length_cons]
      rw [← ih hndtl hptl]

/-- C5 counterexample: the socket "S" connects to game `gA`, then to game
`gB`, then leaves `gB` (as its author). The LEAVE handler's `unregister` only
leaves the room of the oldest registry entry (`gA`), so after the LEAVE the
caller is still bound to the departed session's room `gB` — refuting the claim
that the caller's connection is always unbound from the session's room. -/
theorem leave_socket_stays_in_session_room :
    Reach cfg4 sB5 ∧
    sB4.games.find? (fun g => g.code = some "0001") =
      some ⟨"gB", Status.INIT, some "0001", [⟨"q1", "bob", true, 0⟩], none, true, 0⟩ ∧
    (⟨"q1", "bob", true, 0⟩ : Player) ∈
      (⟨"gB", Status.INIT, some "0001", [⟨"q1", "bob", true, 0⟩], none, true, 0⟩ : Game).players ∧
    ("S", "gB") ∈ sB5.rooms := by
  refine ⟨?_, by decide, by decide, by decide⟩
  exact Reach.leave sB4 ⟨"0001", "q1"⟩ "S" 9
    (Reach.connect sB3 ⟨"0001", "q1"⟩ "S"
      (Reach.connect sB2 ⟨"0000", "p1"⟩ "S"
        (Reach.create sA1 "bob" "gB" "q1" (fun _ => 1) 1 0
          (Reach.create SState.empty "alice" "gA" "p1" (fun _ => 0) 1 0
            Reach.init (by decide))
          (by decide))))

/-- C5 amended: a LEAVE whose token identifies an existing session and a
member player finishes the session when the caller is the author (regardless
of prior status), and otherwise — on a roster with distinct player ids and at
least two players — removes exactly that player with the status unchanged; the
handler unbinds the caller's connection from the room of its oldest registry
entry, which is the session's room exactly when that oldest entry names it. -/
theorem onLeave_member_spec (st : SState) (td : GameTokenData) (sid : String)
    (now : Nat) (g : Game) (p : Player)
    (hg : st.games.find? (fun x => x.code = some td.code) = some g)
    (hp : g.players.find? (fun q => q.id = td.playerId) = some p)
    (hval : validGame g) :
    (p.author = true →
      (onLeave st td sid now).1.games =
        saveExisting st.games { g with status := Status.FINISHED } now ∧
      (onLeave st td sid now).2 = Reply.leaveBroadcast g.id ∧
      (st.regs.find? (fun r => r.socketId = sid) = some ⟨sid, g.id⟩ →
        (sid, g.id) ∉ (onLeave st td sid now).1.rooms)) ∧
    (p.author = false → (g.players.map Player.id).Nodup → 2 ≤ g.players.length →
      (onLeave st td sid now).1.games =
        saveExisting st.games
          { g with players := g.players.filter (fun q => q ≠ p) } now ∧
      ({ g with players := g.players.filter (fun q => q ≠ p) } : Game).status = g.status ∧
      p ∉ g.players.filter (fun q => q ≠ p) ∧
      (g.players.filter (fun q => q ≠ p)).length + 1 = g.players.length ∧
      (onLeave st td sid now).2 = Reply.leaveBroadcast g.id ∧
      (st.regs.find? (fun r => r.socketId = sid) = some ⟨sid, g.id⟩ →
        (sid, g.id) ∉ (onLeave st td sid now).1.rooms)) := by
  have hpmem : p ∈ g.players := List.mem_of_find?_eq_some hp
  constructor
  · intro hauth
    have heq : onLeave st td sid now =
        (unregister
            { st with
                games := saveExisting st.games { g with status := Status.FINISHED } now }
            sid,
          Reply.leaveBroadcast g.id) := by
      unfold onLeave
      rw [hg]
      dsimp only
      rw [hp]
      dsimp only
      rw [if_pos hauth]
      rw [if_pos (by rw [validateGame_congr_players rfl]; exact hval)]
    rw [heq]
    refine ⟨(unregister_games _ sid).1, rfl, ?_⟩
    intro hreg
    show (sid, g.id) ∉ (unregister _ sid).rooms
    unfold unregister
    rw [show ({ st with
        games := saveExisting st.games { g with status := Status.FINISHED } now } : SState).regs
      = st.regs from rfl, hreg]
    dsimp only
    intro hmem
    rw [List.mem_filter] at hmem
    simp at hmem
  · intro hauth hnd hlen
    have hnauth : ¬ (p.author = true) := by rw [hauth]; simp
    have hlth := filter_ne_length_of_nodup_key hnd hpmem
    have hval' : validateGame
        { g with players := g.players.filter (fun q => q ≠ p) } = [] := by
      rw [validateGame_eq_nil_iff]
      obtain ⟨-, hle, hnames⟩ := (validateGame_eq_nil_iff g).mp hval
      refine ⟨?_, ?_, ?_⟩
      · show 1 ≤ (g.players.filter (fun q => q ≠ p)).length
        omega
      · show (g.players.filter (fun q => q ≠ p)).length ≤ 10
        omega
      · intro q hq
        exact hnames q (List.mem_of_mem_filter hq)
    have heq : onLeave st td sid now =
        (unregister
            { st with
                games := saveExisting st.games
                  { g with players := g.players.filter (fun q => q ≠ p) } now }
            sid,
          Reply.leaveBroadcast g.id) := by
      unfold onLeave
      rw [hg]
      dsimp only
      rw [hp]
      dsimp only
      rw [if_neg hnauth]
      rw [if_pos hval']
    rw [heq]
    refine ⟨(unregister_games _ sid).1, rfl, ?_, hlth, rfl, ?_⟩
    · intro hmem
      rw [List.mem_filter] at hmem
      simp at hmem
    · intro hreg
      show (sid, g.id) ∉ (unregister _ sid).rooms
      unfold unregister
      rw [show ({ st with
          games := saveExisting st.games
            { g with players := g.players.filter (fun q => q ≠ p) } now } : SState).regs
        = st.regs from rfl, hreg]
      dsimp only
      intro hmem
      rw [List.mem_filter] at hmem
      simp at hmem


theorem onLeave_member_spec_witness :
    ((onLeave stLobbyReg ⟨"1234", "p1"⟩ "S" 9).1.games =
      saveExisting stLobbyReg.games { gLobby with status := Status.FINISHED } 9 ∧
     (onLeave stLobbyReg ⟨"1234", "p1"⟩ "S" 9).2 = Reply.leaveBroadcast gLobby.id ∧
     (stLobbyReg.regs.find? (fun r => r.socketId = "S") = some ⟨"S", gLobby.id⟩ →
       ("S", gLobby.id) ∉ (onLeave stLobbyReg ⟨"1234", "p1"⟩ "S" 9).1.rooms)) ∧
    ((onLeave stPair ⟨"1234", "p2"⟩ "S" 9).1.games =
      saveExisting stPair.games
        { gPair with players := gPair.players.filter (fun q => q ≠ pBob) } 9 ∧
     ({ gPair with players := gPair.players.filter (fun q => q ≠ pBob) } : Game).status =
       gPair.status ∧
     pBob ∉ gPair.players.filter (fun q => q ≠ pBob) ∧
     (gPair.players.filter (fun q => q ≠ pBob)).length + 1 = gPair.players.length ∧
     (onLeave stPair ⟨"1234", "p2"⟩ "S" 9).2 = Reply.leaveBroadcast gPair.id ∧
     (stPair.regs.find? (fun r => r.socketId = "S") = some ⟨"S", gPair.id⟩ →
       ("S", gPair.id) ∉ (onLeave stPair ⟨"1234", "p2"⟩ "S" 9).1.rooms)) :=
  ⟨(onLeave_member_spec stLobbyReg ⟨"1234", "p1"⟩ "S" 9 gLobby pAlice
      (by decide) (by decide) (by decide)).1 (by decide),
   (onLeave_member_spec stPair ⟨"1234", "p2"⟩ "S" 9 gPair pBob
      (by decide) (by decide) (by decide)).2 (by decide) (by decide) (by decide)⟩

/-! ### C6: the reaper at a concrete failing input -/

/-- C6 at the failing input: the sweep (10-minute timeout, `now` = 11 min)
finishes the stale valid session `gA` (status FINISHED, `code` null, saved)
even though the earlier stale session `gX` failed to save, and leaves the
fresh session `gY` untouched — but `usedCodes` still contains `"1234"`:
`_.remove(usedCodes, game.code)` uses the lodash property-iteratee shorthand
and removes nothing, so the reaped code is never released. -/
theorem reaper_never_releases_codes :
    finishInactiveGamesTask cfg4 stSweep 660000 =
      ⟨[gBad,
        { gLobby with status := Status.FINISHED, code := none, updatedAt := 660000 },
        gFresh],
       ["1111", "1234", "2222"], [], []⟩ ∧
    "1234" ∈ (finishInactiveGamesTask cfg4 stSweep 660000).usedCodes := by
  constructor <;> decide

/-! ### C1: the reachable-state code invariant -/

lemma filterMap_code_nodup_inj {l : List Game} (hnd : (l.filterMap Game.code).Nodup)
    {g1 g2 : Game} {c : String} (h1 : g1 ∈ l) (h2 : g2 ∈ l)
    (hc1 : g1.code = some c) (hc2 : g2.code = some c) : g1 = g2 := by
  induction l with
  | nil => cases h1
  | cons a tl ih =>
    rw [List.filterMap_cons] at hnd
    cases hac : a.code with
    | none =>
      rw [hac] at hnd
      have h1tl : g1 ∈ tl := by
        rcases List.mem_cons.mp h1 with rfl | h1tl
        · rw [hac] at hc1; cases hc1
        · exact h1tl
      have h2tl : g2 ∈ tl := by
        rcases List.mem_cons.mp h2 with rfl | h2tl
        · rw [hac] at hc2; cases hc2
        · exact h2tl
      exact ih hnd h1tl h2tl
    | some ca =>
      rw [hac] at hnd
      rw [List.nodup_cons] at hnd
      obtain ⟨hca, hndtl⟩ := hnd
      rcases List.mem_cons.mp h1 with rfl | h1tl
      · rcases List.mem_cons.mp h2 with rfl | h2tl
        · rfl
        · exfalso
          rw [hac] at hc1
          cases hc1
          exact hca (List.mem_filterMap.mpr ⟨g2, h2tl, hc2⟩)
      · rcases List.mem_cons.mp h2 with rfl | h2tl
        · exfalso
          rw [hac] at hc2
          cases hc2
          exact hca (List.mem_filterMap.mpr ⟨g1, h1tl, hc1⟩)
        · exact ih hndtl h1tl h2tl

/-- C1 counterexample: a session created and then started by its author is
reachable, is no longer in LOBBY, and still has a non-null code — refuting the
claimed "code non-null iff status LOBBY" invariant. -/
theorem started_session_keeps_code :
    Reach cfg4 sA2 ∧ gA2 ∈ sA2.games ∧
    gA2.code ≠ none ∧ gA2.status ≠ Status.INIT := by
  refine ⟨?_, by decide, by decide, by decide⟩
  exact Reach.start sA1 ⟨"0000", "p1"⟩ "pl" true 7
    (Reach.create SState.empty "alice" "gA" "p1" (fun _ => 0) 1 0
      Reach.init (by decide))

/-- C1 amended: in every reachable state (with a configured code length of at
least 2), every LOBBY session has a non-null code, and no two stored sessions
— in particular no two simultaneously-LOBBY sessions — carry the same code;
the converse direction fails: a session that has left LOBBY may keep its code
(see the counterexample). -/
theorem reach_lobby_code_unique (cfg : Config) (st : SState)
    (hL : 2 ≤ cfg.codeLength) (h : Reach cfg st) :
    (∀ g ∈ st.games, g.status = Status.INIT → g.code ≠ none) ∧
    (∀ g1 ∈ st.games, ∀ g2 ∈ st.games, ∀ c : String,
      g1.code = some c → g2.code = some c → g1 = g2) := by
  have hg := reach_goodState hL h
  constructor
  · intro g hm hinit
    exact hg.2.2.2.1 g hm (by rw [hinit]; simp)
  · intro g1 h1 g2 h2 c hc1 hc2
    exact filterMap_code_nodup_inj hg.2.2.1 h1 h2 hc1 hc2

theorem reach_lobby_code_unique_witness :
    gA1.code ≠ none ∧ gA1 = gA1 :=
  ⟨(reach_lobby_code_unique cfg4 sA1 (by decide)
      (Reach.create SState.empty "alice" "gA" "p1" (fun _ => 0) 1 0
        Reach.init (by decide))).1 gA1 (by decide) (by decide),
   (reach_lobby_code_unique cfg4 sA1 (by decide)
      (Reach.create SState.empty "alice" "gA" "p1" (fun _ => 0) 1 0
        Reach.init (by decide))).2 gA1 (by decide) gA1 (by decide) "0000"
      (by decide) (by decide)⟩


end Spotifind
